import Mathlib

set_option maxHeartbeats 1000000

/-!
Verification development for the secret-retrieval path of the dapr runtime
fragment: the secrets orchestrator (universal API), the access-scope
evaluator, the resiliency retry/timeout engine, the secret cache, the
pub/sub component registry, and the component-metadata templating step.

The registry (pkg/components/pubsub) and the metadata templating
(pkg/runtime/meta) are embedded directly from their Go sources.  The
secrets orchestrator, scope evaluator, resiliency engine and cache are
present in the repository fragment only through their tests, so they are
modelled from the specification (sections 4.2 - 4.5), with backends given
as explicit functions of the global invocation ordinal and with the
mutable cache / call counter / clock threaded as explicit state.
-/

/-- Decidable equality on Except results, so that concrete runs of the
embedded operations can be checked by evaluation. -/
instance {ε α : Type} [DecidableEq ε] [DecidableEq α] : DecidableEq (Except ε α) :=
  fun x y =>
    match x, y with
    | Except.ok a, Except.ok b =>
      if h : a = b then Decidable.isTrue (by rw [h])
      else Decidable.isFalse (fun hc => h (by cases hc; rfl))
    | Except.ok _, Except.error _ => Decidable.isFalse (fun hc => Except.noConfusion hc)
    | Except.error _, Except.ok _ => Decidable.isFalse (fun hc => Except.noConfusion hc)
    | Except.error e, Except.error f =>
      if h : e = f then Decidable.isTrue (by rw [h])
      else Decidable.isFalse (fun hc => h (by cases hc; rfl))

/-- Access levels of a secrets scope (config.AllowAccess / config.DenyAccess). -/
inductive Access where
  | allow
  | deny
deriving DecidableEq

/-- Modelled from the spec: the per-store access-scope record of section 3
(pkg/config SecretsScope is not under src/). -/
structure SecretsScope where
  defaultAccess : Access
  allowedSecrets : List String
  deniedSecrets : List String
deriving DecidableEq

/-- Modelled from the spec: the access-scope evaluation algorithm of
section 4.2 (pkg/config IsSecretAllowed is not under src/).  The argument
is the scope looked up for the store, with none meaning that no scope is
configured. -/
def isSecretAllowed (scope : Option SecretsScope) (key : String) : Bool :=
  match scope with
  | none => true
  | some s =>
    if s.allowedSecrets.isEmpty = false then s.allowedSecrets.contains key
    else if s.deniedSecrets.contains key then false
    else decide (s.defaultAccess = Access.allow)

/-- The embedding of strings.ToLower, written over the character list so
that it evaluates inside the kernel. -/
def lowerStr (s : String) : String := String.mk (s.data.map Char.toLower)

/-- Association-list lookup (the embedding of a Go map read). -/
def lookupKV {κ α : Type} [BEq κ] : List (κ × α) → κ → Option α
  | [], _ => none
  | (k, v) :: rest, key => if k == key then some v else lookupKV rest key

/-- Store lookup in the registration table; store names are
case-insensitive at lookup time (section 3). -/
def lookupStore {α : Type} : List (String × α) → String → Option α
  | [], _ => none
  | (k, v) :: rest, name =>
    if lowerStr k == lowerStr name then some v else lookupStore rest name

/-- A secret map: the data of a single-secret response. -/
abbrev SecretMap := List (String × String)

/-- A backend instance (section 3): each operation is a function of the
global invocation ordinal, returning the outcome together with the
duration the call would naturally take.  This makes per-attempt behaviour
(fail first N-1 attempts, then succeed; sleep 10 s; ...) expressible. -/
structure SecretStore where
  getSecret : String → Nat → Except String SecretMap × Nat
  bulkGetSecret : List (String × String) → Nat → Except String (List (String × SecretMap)) × Nat

/-- Modelled from the spec: a resolved resiliency policy binding for one
target (section 4.3): a constant retry schedule of maxAttempts total
attempts with a fixed backoff between attempts, and an optional
per-attempt timeout.  The circuit breaker of section 4.3 is not exercised
by any claim and is not modelled. -/
structure ResiliencyPolicy where
  maxAttempts : Nat
  timeout : Option Nat
  backoff : Nat
deriving DecidableEq

/-- The error taxonomy of section 7. -/
inductive ApiError where
  | notConfigured
  | invalidArgument (storeName : String)
  | permissionDenied (storeName key : String)
  | internal (msg : String)
deriving DecidableEq

/-- Mutable state threaded through a request: the secret cache entries,
the number of backend invocations performed so far (the invocation
ordinal fed to the backend), and a clock of elapsed time units. -/
structure OrchState where
  cache : List ((String × String) × SecretMap)
  calls : Nat
  now : Nat
deriving DecidableEq

/-- Modelled from the spec: the universal API value (section 4.5): the
store registration table, the per-store scopes, the policy binding per
target store, and the set of cache-enabled stores (the effect of
InitForStore during component setup, per-store and immutable). -/
structure UniversalAPI where
  secretStores : List (String × SecretStore)
  secretsConfiguration : List (String × SecretsScope)
  resiliency : String → Option ResiliencyPolicy
  cacheEnabled : List String

/-- Targets without a configured binding execute the operation exactly
once, unprotected (section 4.3). -/
def policyFor (api : UniversalAPI) (storeName : String) : ResiliencyPolicy :=
  match api.resiliency storeName with
  | some p => p
  | none => { maxAttempts := 1, timeout := none, backoff := 0 }

/-- Modelled from the spec: the resiliency engine (section 4.3) for a
constant retry schedule.  Runs up to the given number of attempts; each
attempt consults the operation at the current invocation ordinal, is cut
off at the per-attempt timeout (a timed-out attempt counts as a failure
and contributes exactly the timeout to the clock), stops at the first
success, waits the fixed backoff between attempts, and returns the most
recent underlying error once attempts are exhausted. -/
def runAttempts {α : Type} (op : Nat → Except String α × Nat)
    (timeout : Option Nat) (backoff : Nat) :
    Nat → OrchState → Except String α × OrchState
  | 0, st => (Except.error "resiliency: no attempts", st)
  | n + 1, st =>
    let r := op st.calls
    let timedOut : Bool :=
      match timeout with
      | some t => decide (t < r.2)
      | none => false
    let effDur : Nat :=
      match timeout with
      | some t => min r.2 t
      | none => r.2
    let st1 : OrchState := { st with calls := st.calls + 1, now := st.now + effDur }
    let res1 : Except String α := if timedOut then Except.error "timeout" else r.1
    match res1 with
    | Except.ok v => (Except.ok v, st1)
    | Except.error e =>
      match n with
      | 0 => (Except.error e, st1)
      | m + 1 => runAttempts op timeout backoff (m + 1) { st1 with now := st1.now + backoff }

/-- Modelled from the spec: the reserved cache-refresh metadata key
(section 4.4; the literal key name is not given by the spec). -/
def refreshCacheKey : String := "refreshCache"

/-- A single-secret request (section 3). -/
structure GetSecretRequest where
  storeName : String
  key : String
  metadata : List (String × String)
deriving DecidableEq

/-- A bulk request (section 3): key is empty for bulk. -/
structure GetBulkSecretRequest where
  storeName : String
  metadata : List (String × String)
deriving DecidableEq

/-- Modelled from the spec: orchestrator steps 5 and 6 of section 4.5 -
invoke the backend through the resiliency engine with the store name as
target, translate an exhausted-policy error to the internal category, and
on success write the result through the cache if the store is
cache-enabled. -/
def invokeAndCache (api : UniversalAPI) (store : SecretStore)
    (storeName key : String) (st : OrchState) : Except ApiError SecretMap × OrchState :=
  let pol := policyFor api storeName
  let out := runAttempts (store.getSecret key) pol.timeout pol.backoff pol.maxAttempts st
  match out.1 with
  | Except.error e => (Except.error (ApiError.internal e), out.2)
  | Except.ok v =>
    if api.cacheEnabled.contains storeName then
      (Except.ok v, { out.2 with cache := ((storeName, key), v) :: out.2.cache })
    else
      (Except.ok v, out.2)

/-- Modelled from the spec: the single-secret orchestrator of section 4.5:
(1) fail not-configured on an empty registration table, (2) unknown store
name is an invalid argument, (3) scope denial is a permission error
produced before cache and backend, (4) on a cache-enabled store without
the refresh flag a cache hit is returned directly, (5)-(6) otherwise the
backend runs under the resiliency policy and a success is written back to
the cache. -/
def getSecret (api : UniversalAPI) (req : GetSecretRequest) (st : OrchState) :
    Except ApiError SecretMap × OrchState :=
  if api.secretStores.isEmpty then (Except.error ApiError.notConfigured, st)
  else
    match lookupStore api.secretStores req.storeName with
    | none => (Except.error (ApiError.invalidArgument req.storeName), st)
    | some store =>
      if isSecretAllowed (lookupKV api.secretsConfiguration req.storeName) req.key then
        if api.cacheEnabled.contains req.storeName
            && !(lookupKV req.metadata refreshCacheKey == some "true") then
          match lookupKV st.cache (req.storeName, req.key) with
          | some v => (Except.ok v, st)
          | none => invokeAndCache api store req.storeName req.key st
        else invokeAndCache api store req.storeName req.key st
      else (Except.error (ApiError.permissionDenied req.storeName req.key), st)

/-- Modelled from the spec: the bulk orchestrator of section 4.5: the
not-configured and unknown-store checks, then the backend under the
resiliency policy, then per-key scope filtering of the successful
response (steps 1, 2, 5, 7; the cache is single-key only). -/
def getBulkSecret (api : UniversalAPI) (req : GetBulkSecretRequest) (st : OrchState) :
    Except ApiError (List (String × SecretMap)) × OrchState :=
  if api.secretStores.isEmpty then (Except.error ApiError.notConfigured, st)
  else
    match lookupStore api.secretStores req.storeName with
    | none => (Except.error (ApiError.invalidArgument req.storeName), st)
    | some store =>
      let pol := policyFor api req.storeName
      let out := runAttempts (store.bulkGetSecret req.metadata) pol.timeout pol.backoff pol.maxAttempts st
      match out.1 with
      | Except.error e => (Except.error (ApiError.internal e), out.2)
      | Except.ok items =>
        (Except.ok (items.filter
          (fun kv => isSecretAllowed (lookupKV api.secretsConfiguration req.storeName) kv.1)), out.2)

/-! ### Reduction lemmas for the orchestrator -/

theorem lookupStore_isEmpty_false {α : Type} {l : List (String × α)} {n : String} {s : α}
    (h : lookupStore l n = some s) : l.isEmpty = false := by
  cases l with
  | nil => simp [lookupStore] at h
  | cons a rest => rfl

theorem getSecret_empty {api : UniversalAPI} {req : GetSecretRequest} {st : OrchState}
    (h : api.secretStores.isEmpty = true) :
    getSecret api req st = (Except.error ApiError.notConfigured, st) := by
  simp [getSecret, h]

theorem getSecret_unknown {api : UniversalAPI} {req : GetSecretRequest} {st : OrchState}
    (h1 : api.secretStores.isEmpty = false)
    (h2 : lookupStore api.secretStores req.storeName = none) :
    getSecret api req st = (Except.error (ApiError.invalidArgument req.storeName), st) := by
  simp [getSecret, h1, h2]

theorem getSecret_denied {api : UniversalAPI} {req : GetSecretRequest} {st : OrchState}
    {store : SecretStore}
    (h2 : lookupStore api.secretStores req.storeName = some store)
    (h3 : isSecretAllowed (lookupKV api.secretsConfiguration req.storeName) req.key = false) :
    getSecret api req st = (Except.error (ApiError.permissionDenied req.storeName req.key), st) := by
  simp [getSecret, lookupStore_isEmpty_false h2, h2, h3]

/-- A backend with the behaviour of the tests' FakeSecretStore. -/
def fakeStore : SecretStore where
  getSecret := fun k _n =>
    (if k == "good-key" then Except.ok [("good-key", "life is good")]
     else if k == "error-key" then Except.error "error occurs with error-key"
     else Except.ok [], 0)
  bulkGetSecret := fun _md _n =>
    (Except.ok [("good-key", [("good-key", "life is good")])], 0)

/-! ### Claims C4, C5, C6, C1 -/

/-- C4: for every request (any store name, key and metadata), if the store
registration table is empty then both GetSecret and GetBulkSecret fail
with the NotConfigured error, with the state untouched (the check
short-circuits before any other check: no scope, cache or backend state
is consulted and the result does not depend on them). -/
theorem C4_empty_table_not_configured (api : UniversalAPI) (req : GetSecretRequest)
    (breq : GetBulkSecretRequest) (st : OrchState)
    (h : api.secretStores = []) :
    getSecret api req st = (Except.error ApiError.notConfigured, st) ∧
    getBulkSecret api breq st = (Except.error ApiError.notConfigured, st) := by
  constructor
  · exact getSecret_empty (by simp [h])
  · simp [getBulkSecret, h]

/-- Witness for C4 at a concrete empty-table API. -/
theorem C4_empty_table_not_configured_witness :
    getSecret ⟨[], [], fun _ => none, []⟩ ⟨"x", "y", []⟩ ⟨[], 0, 0⟩
      = (Except.error ApiError.notConfigured, ⟨[], 0, 0⟩) ∧
    getBulkSecret ⟨[], [], fun _ => none, []⟩ ⟨"x", []⟩ ⟨[], 0, 0⟩
      = (Except.error ApiError.notConfigured, ⟨[], 0, 0⟩) :=
  C4_empty_table_not_configured _ _ _ _ rfl

/-- C5: for every (store, key) pair where the table is non-empty but the
store name is absent from it, GetSecret returns an InvalidArgument error
with the state untouched, for every scope configuration and cache content
(so the check precedes access-scope evaluation, the cache and the
backend). -/
theorem C5_unknown_store_invalid_argument (api : UniversalAPI) (req : GetSecretRequest)
    (st : OrchState)
    (h1 : api.secretStores ≠ [])
    (h2 : lookupStore api.secretStores req.storeName = none) :
    getSecret api req st = (Except.error (ApiError.invalidArgument req.storeName), st) := by
  refine getSecret_unknown ?_ h2
  cases hs : api.secretStores with
  | nil => exact absurd hs h1
  | cons a rest => rfl

/-- Witness for C5 at a concrete one-store API and an absent store name. -/
theorem C5_unknown_store_invalid_argument_witness :
    getSecret ⟨[("store1", fakeStore)], [], fun _ => none, []⟩ ⟨"nonexistent", "key", []⟩ ⟨[], 0, 0⟩
      = (Except.error (ApiError.invalidArgument "nonexistent"), ⟨[], 0, 0⟩) :=
  C5_unknown_store_invalid_argument _ _ _ (List.cons_ne_nil _ _)
    (by simp [lookupStore, show (lowerStr "store1" == lowerStr "nonexistent") = false from by decide])

/-- C6: a store with no configured scope permits every key; and a scope
with empty AllowedSecrets, non-empty DeniedSecrets and DefaultAccess =
Allow permits a key exactly when the key is not in DeniedSecrets. -/
theorem C6_no_scope_and_denylist (key : String) (s : SecretsScope)
    (h1 : s.allowedSecrets = [])
    (_h2 : s.deniedSecrets ≠ [])
    (h3 : s.defaultAccess = Access.allow) :
    isSecretAllowed none key = true ∧
    (isSecretAllowed (some s) key = true ↔ key ∉ s.deniedSecrets) := by
  refine ⟨rfl, ?_⟩
  by_cases hm : key ∈ s.deniedSecrets <;> simp [isSecretAllowed, h1, h3, hm]

/-- Witness for C6 at the denylist scope of the tests' store1. -/
theorem C6_no_scope_and_denylist_witness :
    isSecretAllowed none "good-key" = true ∧
    (isSecretAllowed (some ⟨Access.allow, [], ["not-allowed"]⟩) "good-key" = true ↔
      "good-key" ∉ (["not-allowed"] : List String)) :=
  C6_no_scope_and_denylist "good-key" ⟨Access.allow, [], ["not-allowed"]⟩ rfl (by decide) rfl

/-- C1: for a store present in the table whose scope has a non-empty
AllowedSecrets set, a key is permitted exactly when it is a member of
AllowedSecrets, for every DefaultAccess (including Allow); and a key
outside the set makes GetSecret return a PermissionDenied error with the
state untouched. -/
theorem C1_whitelist_overrides_default (api : UniversalAPI) (req : GetSecretRequest)
    (st : OrchState) (store : SecretStore) (sc : SecretsScope)
    (h2 : lookupStore api.secretStores req.storeName = some store)
    (hsc : lookupKV api.secretsConfiguration req.storeName = some sc)
    (hne : sc.allowedSecrets ≠ []) :
    (isSecretAllowed (some sc) req.key = true ↔ req.key ∈ sc.allowedSecrets) ∧
    (req.key ∉ sc.allowedSecrets →
      getSecret api req st = (Except.error (ApiError.permissionDenied req.storeName req.key), st)) := by
  have hemp : sc.allowedSecrets.isEmpty = false := by
    cases hs : sc.allowedSecrets with
    | nil => exact absurd hs hne
    | cons a rest => rfl
  have hiff : isSecretAllowed (some sc) req.key = true ↔ req.key ∈ sc.allowedSecrets := by
    simp [isSecretAllowed, hemp]
  refine ⟨hiff, fun hnot => ?_⟩
  refine getSecret_denied h2 ?_
  rw [hsc]
  cases hb : isSecretAllowed (some sc) req.key with
  | false => rfl
  | true => exact absurd (hiff.mp hb) hnot

/-- Witness for C1 at the tests' store3 scenario (whitelist, key outside). -/
theorem C1_whitelist_overrides_default_witness :
    (isSecretAllowed (some ⟨Access.allow, ["error-key", "good-key"], []⟩) "random" = true ↔
      "random" ∈ (["error-key", "good-key"] : List String)) ∧
    getSecret ⟨[("store3", fakeStore)], [("store3", ⟨Access.allow, ["error-key", "good-key"], []⟩)],
        fun _ => none, []⟩ ⟨"store3", "random", []⟩ ⟨[], 0, 0⟩
      = (Except.error (ApiError.permissionDenied "store3" "random"), ⟨[], 0, 0⟩) := by
  have h2 : lookupStore [("store3", fakeStore)] "store3" = some fakeStore := by
    simp [lookupStore, show (lowerStr "store3" == lowerStr "store3") = true from by decide]
  have h := C1_whitelist_overrides_default
    ⟨[("store3", fakeStore)], [("store3", ⟨Access.allow, ["error-key", "good-key"], []⟩)],
      fun _ => none, []⟩ ⟨"store3", "random", []⟩ ⟨[], 0, 0⟩ fakeStore
    ⟨Access.allow, ["error-key", "good-key"], []⟩ h2 (by simp [lookupKV]) (by decide)
  exact ⟨h.1, h.2 (by decide)⟩

/-! ### Resiliency engine lemmas -/

/-- With no timeout, a run whose first attempts all fail and whose last
attempt succeeds returns the success, with exactly n backend invocations
and the cache untouched. -/
theorem runAttempts_ok {α : Type} (op : Nat → Except String α × Nat) (w : Nat) (v : α) :
    ∀ (n : Nat) (st : OrchState), 1 ≤ n →
      (∀ j, j + 1 < n → ∃ e, (op (st.calls + j)).1 = Except.error e) →
      (op (st.calls + (n - 1))).1 = Except.ok v →
      ∃ t, runAttempts op none w n st =
        (Except.ok v, { cache := st.cache, calls := st.calls + n, now := t }) := by
  intro n
  induction n with
  | zero => intro st h; omega
  | succ k ih =>
    intro st _h hfail hok
    cases k with
    | zero =>
      refine ⟨st.now + (op st.calls).2, ?_⟩
      have hok0 : (op st.calls).1 = Except.ok v := by simpa using hok
      conv_lhs => rw [runAttempts]
      simp [hok0]
    | succ m =>
      obtain ⟨e, he⟩ := hfail 0 (by omega)
      have he0 : (op st.calls).1 = Except.error e := by simpa using he
      have step : runAttempts op none w (m + 2) st =
          runAttempts op none w (m + 1)
            { cache := st.cache, calls := st.calls + 1, now := st.now + (op st.calls).2 + w } := by
        conv_lhs => rw [runAttempts]
        simp [he0]
      obtain ⟨t, ht⟩ := ih
        { cache := st.cache, calls := st.calls + 1, now := st.now + (op st.calls).2 + w }
        (by omega)
        (by
          intro j hj
          obtain ⟨e2, he2⟩ := hfail (j + 1) (by omega)
          refine ⟨e2, ?_⟩
          rw [show st.calls + 1 + j = st.calls + (j + 1) from by omega]
          exact he2)
        (by
          rw [show st.calls + 1 + (m + 1 - 1) = st.calls + (m + 2 - 1) from by omega]
          exact hok)
      refine ⟨t, ?_⟩
      rw [step, ht, show st.calls + 1 + (m + 1) = st.calls + (m + 2) from by omega]

/-- With no timeout, a run all of whose attempts fail returns the most
recent underlying error, with exactly n backend invocations and the cache
untouched. -/
theorem runAttempts_err {α : Type} (op : Nat → Except String α × Nat) (w : Nat) :
    ∀ (n : Nat), ∀ (es : Nat → String) (st : OrchState), 1 ≤ n →
      (∀ j, j < n → (op (st.calls + j)).1 = Except.error (es j)) →
      ∃ t, runAttempts op none w n st =
        (Except.error (es (n - 1)), { cache := st.cache, calls := st.calls + n, now := t }) := by
  intro n
  induction n with
  | zero => intro es st h; omega
  | succ k ih =>
    intro es st _h hfail
    cases k with
    | zero =>
      refine ⟨st.now + (op st.calls).2, ?_⟩
      have he0 : (op st.calls).1 = Except.error (es 0) := by simpa using hfail 0 (by omega)
      conv_lhs => rw [runAttempts]
      simp [he0]
    | succ m =>
      have he0 : (op st.calls).1 = Except.error (es 0) := by simpa using hfail 0 (by omega)
      have step : runAttempts op none w (m + 2) st =
          runAttempts op none w (m + 1)
            { cache := st.cache, calls := st.calls + 1, now := st.now + (op st.calls).2 + w } := by
        conv_lhs => rw [runAttempts]
        simp [he0]
      obtain ⟨t, ht⟩ := ih (fun j => es (j + 1))
        { cache := st.cache, calls := st.calls + 1, now := st.now + (op st.calls).2 + w }
        (by omega)
        (by
          intro j hj
          rw [show st.calls + 1 + j = st.calls + (j + 1) from by omega]
          exact hfail (j + 1) (by omega))
      refine ⟨t, ?_⟩
      rw [step, ht, show st.calls + 1 + (m + 1) = st.calls + (m + 2) from by omega,
        show m + 1 - 1 + 1 = m + 2 - 1 from by omega]

/-- With a per-attempt timeout that every attempt exceeds, the run fails
with a timeout error after exactly n attempts, with the clock advanced by
n timeouts plus the backoff waits in between. -/
theorem runAttempts_timeout {α : Type} (op : Nat → Except String α × Nat) (w T : Nat) :
    ∀ (n : Nat) (st : OrchState), 1 ≤ n →
      (∀ j, j < n → T < (op (st.calls + j)).2) →
      runAttempts op (some T) w n st =
        (Except.error "timeout",
          { cache := st.cache, calls := st.calls + n, now := st.now + n * T + (n - 1) * w }) := by
  intro n
  induction n with
  | zero => intro st h; omega
  | succ k ih =>
    intro st _h hdur
    have hd0 : T < (op st.calls).2 := by simpa using hdur 0 (by omega)
    have hdec : decide (T < (op st.calls).2) = true := by simpa using hd0
    have hmin : min (op st.calls).2 T = T := Nat.min_eq_right (Nat.le_of_lt hd0)
    cases k with
    | zero =>
      conv_lhs => rw [runAttempts]
      simp [hdec, hmin]
    | succ m =>
      have step : runAttempts op (some T) w (m + 2) st =
          runAttempts op (some T) w (m + 1)
            { cache := st.cache, calls := st.calls + 1, now := st.now + T + w } := by
        conv_lhs => rw [runAttempts]
        simp [hdec, hmin]
      rw [step, ih _ (by omega)
        (by
          intro j hj
          rw [show st.calls + 1 + j = st.calls + (j + 1) from by omega]
          exact hdur (j + 1) (by omega))]
      rw [show st.calls + 1 + (m + 1) = st.calls + (m + 2) from by omega]
      have hnow : st.now + T + w + (m + 1) * T + (m + 1 - 1) * w
          = st.now + (m + 2) * T + (m + 2 - 1) * w := by
        rw [show m + 1 - 1 = m from by omega, show m + 2 - 1 = m + 1 from by omega]
        ring
      rw [hnow]

/-! ### Orchestrator step lemmas -/

theorem getSecret_invoke_nocache {api : UniversalAPI} {req : GetSecretRequest} {st : OrchState}
    {store : SecretStore}
    (h2 : lookupStore api.secretStores req.storeName = some store)
    (h3 : isSecretAllowed (lookupKV api.secretsConfiguration req.storeName) req.key = true)
    (h4 : api.cacheEnabled.contains req.storeName = false) :
    getSecret api req st = invokeAndCache api store req.storeName req.key st := by
  have h4m : req.storeName ∉ api.cacheEnabled := by simpa using h4
  simp [getSecret, lookupStore_isEmpty_false h2, h2, h3, h4m]

theorem getSecret_cacheHit {api : UniversalAPI} {req : GetSecretRequest} {st : OrchState}
    {store : SecretStore} {v : SecretMap}
    (h2 : lookupStore api.secretStores req.storeName = some store)
    (h3 : isSecretAllowed (lookupKV api.secretsConfiguration req.storeName) req.key = true)
    (h4 : api.cacheEnabled.contains req.storeName = true)
    (hrf : (lookupKV req.metadata refreshCacheKey == some "true") = false)
    (hhit : lookupKV st.cache (req.storeName, req.key) = some v) :
    getSecret api req st = (Except.ok v, st) := by
  have h4m : req.storeName ∈ api.cacheEnabled := by simpa using h4
  have hrfm : lookupKV req.metadata refreshCacheKey ≠ some "true" := by simpa using hrf
  simp [getSecret, lookupStore_isEmpty_false h2, h2, h3, h4m, hrfm, hhit]

theorem getSecret_cacheMiss {api : UniversalAPI} {req : GetSecretRequest} {st : OrchState}
    {store : SecretStore}
    (h2 : lookupStore api.secretStores req.storeName = some store)
    (h3 : isSecretAllowed (lookupKV api.secretsConfiguration req.storeName) req.key = true)
    (h4 : api.cacheEnabled.contains req.storeName = true)
    (hrf : (lookupKV req.metadata refreshCacheKey == some "true") = false)
    (hmiss : lookupKV st.cache (req.storeName, req.key) = none) :
    getSecret api req st = invokeAndCache api store req.storeName req.key st := by
  have h4m : req.storeName ∈ api.cacheEnabled := by simpa using h4
  have hrfm : lookupKV req.metadata refreshCacheKey ≠ some "true" := by simpa using hrf
  simp [getSecret, lookupStore_isEmpty_false h2, h2, h3, h4m, hrfm, hmiss]

theorem getSecret_refresh {api : UniversalAPI} {req : GetSecretRequest} {st : OrchState}
    {store : SecretStore}
    (h2 : lookupStore api.secretStores req.storeName = some store)
    (h3 : isSecretAllowed (lookupKV api.secretsConfiguration req.storeName) req.key = true)
    (hrf : (lookupKV req.metadata refreshCacheKey == some "true") = true) :
    getSecret api req st = invokeAndCache api store req.storeName req.key st := by
  have hrfm : lookupKV req.metadata refreshCacheKey = some "true" := by simpa using hrf
  simp [getSecret, lookupStore_isEmpty_false h2, h2, h3, hrfm]

theorem invokeAndCache_ok_nocache {api : UniversalAPI} {store : SecretStore}
    {storeName key : String} {st st2 : OrchState} {v : SecretMap}
    (hc : api.cacheEnabled.contains storeName = false)
    (hrun : runAttempts (store.getSecret key) (policyFor api storeName).timeout
      (policyFor api storeName).backoff (policyFor api storeName).maxAttempts st
      = (Except.ok v, st2)) :
    invokeAndCache api store storeName key st = (Except.ok v, st2) := by
  have hcm : storeName ∉ api.cacheEnabled := by simpa using hc
  simp [invokeAndCache, hrun, hcm]

theorem invokeAndCache_ok_cache {api : UniversalAPI} {store : SecretStore}
    {storeName key : String} {st st2 : OrchState} {v : SecretMap}
    (hc : api.cacheEnabled.contains storeName = true)
    (hrun : runAttempts (store.getSecret key) (policyFor api storeName).timeout
      (policyFor api storeName).backoff (policyFor api storeName).maxAttempts st
      = (Except.ok v, st2)) :
    invokeAndCache api store storeName key st
      = (Except.ok v, { st2 with cache := ((storeName, key), v) :: st2.cache }) := by
  have hcm : storeName ∈ api.cacheEnabled := by simpa using hc
  simp [invokeAndCache, hrun, hcm]

theorem invokeAndCache_err {api : UniversalAPI} {store : SecretStore}
    {storeName key : String} {st st2 : OrchState} {e : String}
    (hrun : runAttempts (store.getSecret key) (policyFor api storeName).timeout
      (policyFor api storeName).backoff (policyFor api storeName).maxAttempts st
      = (Except.error e, st2)) :
    invokeAndCache api store storeName key st = (Except.error (ApiError.internal e), st2) := by
  simp [invokeAndCache, hrun]

theorem getBulkSecret_ok {api : UniversalAPI} {breq : GetBulkSecretRequest} {st st2 : OrchState}
    {store : SecretStore} {items : List (String × SecretMap)}
    (h2 : lookupStore api.secretStores breq.storeName = some store)
    (hrun : runAttempts (store.bulkGetSecret breq.metadata) (policyFor api breq.storeName).timeout
      (policyFor api breq.storeName).backoff (policyFor api breq.storeName).maxAttempts st
      = (Except.ok items, st2)) :
    getBulkSecret api breq st
      = (Except.ok (items.filter
          (fun kv => isSecretAllowed (lookupKV api.secretsConfiguration breq.storeName) kv.1)), st2) := by
  simp [getBulkSecret, lookupStore_isEmpty_false h2, h2, hrun]

theorem getBulkSecret_err {api : UniversalAPI} {breq : GetBulkSecretRequest} {st st2 : OrchState}
    {store : SecretStore} {e : String}
    (h2 : lookupStore api.secretStores breq.storeName = some store)
    (hrun : runAttempts (store.bulkGetSecret breq.metadata) (policyFor api breq.storeName).timeout
      (policyFor api breq.storeName).backoff (policyFor api breq.storeName).maxAttempts st
      = (Except.error e, st2)) :
    getBulkSecret api breq st = (Except.error (ApiError.internal e), st2) := by
  simp [getBulkSecret, lookupStore_isEmpty_false h2, h2, hrun]

/-! ### Claim C2 -/

/-- C2: under a constant-retry binding of N total attempts (no timeout)
for the target store, with caching disabled and the key permitted: if the
backend fails its first N-1 attempts and then succeeds, GetSecret (and
GetBulkSecret) succeeds and the backend was invoked exactly N times; if
all N attempts fail, the engine surfaces the most recent underlying error
(wrapped in the internal category), again after exactly N invocations. -/
theorem C2_constant_retry_attempts (api : UniversalAPI) (sn key : String)
    (md bmd : List (String × String)) (st : OrchState) (store : SecretStore) (N w : Nat)
    (h2 : lookupStore api.secretStores sn = some store)
    (h3 : isSecretAllowed (lookupKV api.secretsConfiguration sn) key = true)
    (h4 : api.cacheEnabled.contains sn = false)
    (h5 : api.resiliency sn = some ⟨N, none, w⟩)
    (h6 : 1 ≤ N) :
    ((∀ j, j + 1 < N → ∃ e, (store.getSecret key (st.calls + j)).1 = Except.error e) →
      ∀ v, (store.getSecret key (st.calls + (N - 1))).1 = Except.ok v →
      (getSecret api ⟨sn, key, md⟩ st).1 = Except.ok v ∧
      (getSecret api ⟨sn, key, md⟩ st).2.calls = st.calls + N ∧
      (getSecret api ⟨sn, key, md⟩ st).2.cache = st.cache) ∧
    (∀ es : Nat → String,
      (∀ j, j < N → (store.getSecret key (st.calls + j)).1 = Except.error (es j)) →
      (getSecret api ⟨sn, key, md⟩ st).1 = Except.error (ApiError.internal (es (N - 1))) ∧
      (getSecret api ⟨sn, key, md⟩ st).2.calls = st.calls + N) ∧
    ((∀ j, j + 1 < N → ∃ e, (store.bulkGetSecret bmd (st.calls + j)).1 = Except.error e) →
      ∀ items, (store.bulkGetSecret bmd (st.calls + (N - 1))).1 = Except.ok items →
      (getBulkSecret api ⟨sn, bmd⟩ st).1
        = Except.ok (items.filter
            (fun kv => isSecretAllowed (lookupKV api.secretsConfiguration sn) kv.1)) ∧
      (getBulkSecret api ⟨sn, bmd⟩ st).2.calls = st.calls + N) ∧
    (∀ es : Nat → String,
      (∀ j, j < N → (store.bulkGetSecret bmd (st.calls + j)).1 = Except.error (es j)) →
      (getBulkSecret api ⟨sn, bmd⟩ st).1 = Except.error (ApiError.internal (es (N - 1))) ∧
      (getBulkSecret api ⟨sn, bmd⟩ st).2.calls = st.calls + N) := by
  have hpol : policyFor api sn = ⟨N, none, w⟩ := by simp [policyFor, h5]
  refine ⟨?_, ?_, ?_, ?_⟩
  · intro hfail v hok
    obtain ⟨t, hrun⟩ := runAttempts_ok (store.getSecret key) w v N st h6 hfail hok
    have heq : getSecret api ⟨sn, key, md⟩ st
        = (Except.ok v, { cache := st.cache, calls := st.calls + N, now := t }) := by
      rw [getSecret_invoke_nocache h2 h3 h4]
      exact invokeAndCache_ok_nocache h4 (by rw [hpol]; exact hrun)
    exact ⟨by rw [heq], by rw [heq], by rw [heq]⟩
  · intro es hfail
    obtain ⟨t, hrun⟩ := runAttempts_err (store.getSecret key) w N es st h6 hfail
    have heq : getSecret api ⟨sn, key, md⟩ st
        = (Except.error (ApiError.internal (es (N - 1))),
           { cache := st.cache, calls := st.calls + N, now := t }) := by
      rw [getSecret_invoke_nocache h2 h3 h4]
      exact invokeAndCache_err (by rw [hpol]; exact hrun)
    exact ⟨by rw [heq], by rw [heq]⟩
  · intro hfail items hok
    obtain ⟨t, hrun⟩ := runAttempts_ok (store.bulkGetSecret bmd) w items N st h6 hfail hok
    have heq := @getBulkSecret_ok api ⟨sn, bmd⟩ st _ store _ h2 (by rw [hpol]; exact hrun)
    exact ⟨by rw [heq], by rw [heq]⟩
  · intro es hfail
    obtain ⟨t, hrun⟩ := runAttempts_err (store.bulkGetSecret bmd) w N es st h6 hfail
    have heq := @getBulkSecret_err api ⟨sn, bmd⟩ st _ store _ h2 (by rw [hpol]; exact hrun)
    exact ⟨by rw [heq], by rw [heq]⟩

/-- A backend that fails its first attempt (invocation ordinal 0) and
succeeds afterwards, used to witness the retry claim. -/
def retryStore : SecretStore where
  getSecret := fun _k n =>
    (if n == 0 then Except.error "first attempt fails" else Except.ok [("key", "v")], 0)
  bulkGetSecret := fun _md n =>
    (if n == 0 then Except.error "first bulk attempt fails"
     else Except.ok [("good-key", [("good-key", "v")])], 0)

/-- Witness for C2: two total attempts against a backend failing only its
first attempt; the call succeeds and the backend ran twice. -/
theorem C2_constant_retry_attempts_witness :
    (getSecret ⟨[("failSecret", retryStore)], [],
        (fun s => if s == "failSecret" then some ⟨2, none, 1⟩ else none), []⟩
      ⟨"failSecret", "key", []⟩ ⟨[], 0, 0⟩).1 = Except.ok [("key", "v")] ∧
    (getSecret ⟨[("failSecret", retryStore)], [],
        (fun s => if s == "failSecret" then some ⟨2, none, 1⟩ else none), []⟩
      ⟨"failSecret", "key", []⟩ ⟨[], 0, 0⟩).2.calls = 0 + 2 ∧
    (getSecret ⟨[("failSecret", retryStore)], [],
        (fun s => if s == "failSecret" then some ⟨2, none, 1⟩ else none), []⟩
      ⟨"failSecret", "key", []⟩ ⟨[], 0, 0⟩).2.cache = ([] : List ((String × String) × SecretMap)) := by
  have h := C2_constant_retry_attempts
    ⟨[("failSecret", retryStore)], [],
      (fun s => if s == "failSecret" then some ⟨2, none, 1⟩ else none), []⟩
    "failSecret" "key" [] [] ⟨[], 0, 0⟩ retryStore 2 1
    (by simp [lookupStore, show (lowerStr "failSecret" == lowerStr "failSecret") = true from by decide])
    (by simp [isSecretAllowed, lookupKV])
    (by decide)
    (by simp)
    (by omega)
  refine h.1 ?_ [("key", "v")] rfl
  intro j hj
  have hj0 : j = 0 := by omega
  subst hj0
  exact ⟨"first attempt fails", rfl⟩

/-! ### Claim C7 -/

/-- C7 (amended): with a per-attempt timeout T for the target store and a
backend whose every invocation naturally takes D > T, the call - GetSecret
and GetBulkSecret alike - fails with a timeout-derived internal error
after exactly the retry bound of attempts, with elapsed time
N*T + (N-1)*backoff; in particular the call returns strictly before the
backend's natural completion time whenever that total attempt budget is
below D. -/
theorem C7_timeout_attempts_budget (api : UniversalAPI) (sn key : String)
    (md bmd : List (String × String)) (st : OrchState) (store : SecretStore) (N w T D : Nat)
    (h2 : lookupStore api.secretStores sn = some store)
    (h3 : isSecretAllowed (lookupKV api.secretsConfiguration sn) key = true)
    (h4 : api.cacheEnabled.contains sn = false)
    (h5 : api.resiliency sn = some ⟨N, some T, w⟩)
    (h6 : 1 ≤ N)
    (hdur : ∀ n, (store.getSecret key n).2 = D)
    (hbdur : ∀ n, (store.bulkGetSecret bmd n).2 = D)
    (hT : T < D) :
    getSecret api ⟨sn, key, md⟩ st
      = (Except.error (ApiError.internal "timeout"),
         { cache := st.cache, calls := st.calls + N, now := st.now + N * T + (N - 1) * w }) ∧
    (N * T + (N - 1) * w < D → (getSecret api ⟨sn, key, md⟩ st).2.now - st.now < D) ∧
    getBulkSecret api ⟨sn, bmd⟩ st
      = (Except.error (ApiError.internal "timeout"),
         { cache := st.cache, calls := st.calls + N, now := st.now + N * T + (N - 1) * w }) ∧
    (N * T + (N - 1) * w < D → (getBulkSecret api ⟨sn, bmd⟩ st).2.now - st.now < D) := by
  have hpol : policyFor api sn = ⟨N, some T, w⟩ := by simp [policyFor, h5]
  have hrun := runAttempts_timeout (store.getSecret key) w T N st h6
    (by intro j hj; rw [hdur]; exact hT)
  have heq : getSecret api ⟨sn, key, md⟩ st
      = (Except.error (ApiError.internal "timeout"),
         { cache := st.cache, calls := st.calls + N, now := st.now + N * T + (N - 1) * w }) := by
    rw [getSecret_invoke_nocache h2 h3 h4]
    exact invokeAndCache_err (by rw [hpol]; exact hrun)
  have hbrun := runAttempts_timeout (store.bulkGetSecret bmd) w T N st h6
    (by intro j hj; rw [hbdur]; exact hT)
  have hbeq : getBulkSecret api ⟨sn, bmd⟩ st
      = (Except.error (ApiError.internal "timeout"),
         { cache := st.cache, calls := st.calls + N, now := st.now + N * T + (N - 1) * w }) :=
    @getBulkSecret_err api ⟨sn, bmd⟩ st _ store _ h2 (by rw [hpol]; exact hbrun)
  refine ⟨heq, fun hbudget => ?_, hbeq, fun hbudget => ?_⟩
  · rw [heq]
    simp
    omega
  · rw [hbeq]
    simp
    omega

/-- A backend whose calls naturally take 3 time units. -/
def slowStore : SecretStore where
  getSecret := fun _k _n => (Except.ok [("k", "v")], 3)
  bulkGetSecret := fun _md _n => (Except.ok [], 3)

/-- Counterexample for C7 as stated: per-attempt timeout 1, natural
completion time 3 > 1, retry bound 2 attempts, backoff 10.  The call does
return an error and does make exactly 2 attempts, but it finishes at time
12, which is not strictly before the backend's natural completion time 3:
the claim's "strictly before" part fails once the total attempt budget
exceeds the natural duration. -/
theorem C7_timeout_strictly_before_counterexample :
    (slowStore.getSecret "k" 0).2 = 3 ∧
    (getSecret ⟨[("s", slowStore)], [],
        (fun s => if s == "s" then some ⟨2, some 1, 10⟩ else none), []⟩
      ⟨"s", "k", []⟩ ⟨[], 0, 0⟩).1 = Except.error (ApiError.internal "timeout") ∧
    (getSecret ⟨[("s", slowStore)], [],
        (fun s => if s == "s" then some ⟨2, some 1, 10⟩ else none), []⟩
      ⟨"s", "k", []⟩ ⟨[], 0, 0⟩).2.calls = 2 ∧
    (getSecret ⟨[("s", slowStore)], [],
        (fun s => if s == "s" then some ⟨2, some 1, 10⟩ else none), []⟩
      ⟨"s", "k", []⟩ ⟨[], 0, 0⟩).2.now = 12 ∧
    ¬ (12 - 0 < 3) := by
  refine ⟨rfl, ?_, ?_, ?_, by omega⟩ <;> decide

/-- Witness for the amended C7 at the counterexample configuration with a
budget below the natural duration: one attempt, timeout 1, backoff 0,
natural duration 3: the call fails at time 1 < 3 after exactly 1 attempt. -/
theorem C7_timeout_attempts_budget_witness :
    (getSecret ⟨[("s", slowStore)], [],
        (fun s => if s == "s" then some ⟨1, some 1, 0⟩ else none), []⟩
      ⟨"s", "k", []⟩ ⟨[], 0, 0⟩
      = (Except.error (ApiError.internal "timeout"),
         { cache := [], calls := 0 + 1, now := 0 + 1 * 1 + (1 - 1) * 0 }) ∧
    (1 * 1 + (1 - 1) * 0 < 3 →
      (getSecret ⟨[("s", slowStore)], [],
          (fun s => if s == "s" then some ⟨1, some 1, 0⟩ else none), []⟩
        ⟨"s", "k", []⟩ ⟨[], 0, 0⟩).2.now - 0 < 3) ∧
    getBulkSecret ⟨[("s", slowStore)], [],
        (fun s => if s == "s" then some ⟨1, some 1, 0⟩ else none), []⟩
      ⟨"s", []⟩ ⟨[], 0, 0⟩
      = (Except.error (ApiError.internal "timeout"),
         { cache := [], calls := 0 + 1, now := 0 + 1 * 1 + (1 - 1) * 0 }) ∧
    (1 * 1 + (1 - 1) * 0 < 3 →
      (getBulkSecret ⟨[("s", slowStore)], [],
          (fun s => if s == "s" then some ⟨1, some 1, 0⟩ else none), []⟩
        ⟨"s", []⟩ ⟨[], 0, 0⟩).2.now - 0 < 3)) := by
  have h := C7_timeout_attempts_budget
    ⟨[("s", slowStore)], [], (fun s => if s == "s" then some ⟨1, some 1, 0⟩ else none), []⟩
    "s" "k" [] [] ⟨[], 0, 0⟩ slowStore 1 0 1 3
    (by simp [lookupStore, show (lowerStr "s" == lowerStr "s") = true from by decide])
    (by simp [isSecretAllowed, lookupKV])
    (by decide)
    (by simp)
    (by omega)
    (by intro n; rfl)
    (by intro n; rfl)
    (by omega)
  exact h

/-! ### Claim C3 -/

/-- A backend that always fails, used to refute the unconditional cache
idempotence claim: errors are never cached, so a second call invokes the
backend again. -/
def failingStore : SecretStore where
  getSecret := fun _k _n => (Except.error "backend boom", 0)
  bulkGetSecret := fun _md _n => (Except.error "backend boom", 0)

/-- Counterexample for C3 as stated: on a cache-enabled store whose
backend fails, two consecutive GetSecret calls with no refresh flag both
reach the backend (nothing was cached after the error), so the backend is
invoked twice, not at most once. -/
theorem C3_cache_at_most_once_counterexample :
    (getSecret ⟨[("s1", failingStore)], [], (fun _ => none), ["s1"]⟩
      ⟨"s1", "k", []⟩ ⟨[], 0, 0⟩).1 = Except.error (ApiError.internal "backend boom") ∧
    (getSecret ⟨[("s1", failingStore)], [], (fun _ => none), ["s1"]⟩ ⟨"s1", "k", []⟩
      ((getSecret ⟨[("s1", failingStore)], [], (fun _ => none), ["s1"]⟩
        ⟨"s1", "k", []⟩ ⟨[], 0, 0⟩).2)).2.calls = 2 ∧
    ¬ ((getSecret ⟨[("s1", failingStore)], [], (fun _ => none), ["s1"]⟩ ⟨"s1", "k", []⟩
      ((getSecret ⟨[("s1", failingStore)], [], (fun _ => none), ["s1"]⟩
        ⟨"s1", "k", []⟩ ⟨[], 0, 0⟩).2)).2.calls ≤ 1) := by
  refine ⟨?_, ?_, ?_⟩ <;> decide

/-- C3 (amended): on a cache-enabled store with no resiliency binding,
a permitted key and a backend whose invocations succeed, two consecutive
GetSecret calls with no refresh flag invoke the backend at most once (the
first call fills the cache, the second is served from it with the state
untouched); a subsequent call carrying the refresh flag set to "true"
forces exactly one additional backend invocation and overwrites the
cached value with the fresh result. -/
theorem C3_cache_idempotence_and_refresh (api : UniversalAPI) (sn key : String)
    (md mdr : List (String × String)) (st0 : OrchState) (store : SecretStore)
    (f : Nat → SecretMap) (d : Nat → Nat)
    (h2 : lookupStore api.secretStores sn = some store)
    (h3 : isSecretAllowed (lookupKV api.secretsConfiguration sn) key = true)
    (h4 : api.cacheEnabled.contains sn = true)
    (h5 : api.resiliency sn = none)
    (hmd : (lookupKV md refreshCacheKey == some "true") = false)
    (hmdr : (lookupKV mdr refreshCacheKey == some "true") = true)
    (hmiss : lookupKV st0.cache (sn, key) = none)
    (hb : ∀ n, store.getSecret key n = (Except.ok (f n), d n)) :
    getSecret api ⟨sn, key, md⟩ st0
      = (Except.ok (f st0.calls),
         ⟨((sn, key), f st0.calls) :: st0.cache, st0.calls + 1, st0.now + d st0.calls⟩) ∧
    getSecret api ⟨sn, key, md⟩
        ⟨((sn, key), f st0.calls) :: st0.cache, st0.calls + 1, st0.now + d st0.calls⟩
      = (Except.ok (f st0.calls),
         ⟨((sn, key), f st0.calls) :: st0.cache, st0.calls + 1, st0.now + d st0.calls⟩) ∧
    getSecret api ⟨sn, key, mdr⟩
        ⟨((sn, key), f st0.calls) :: st0.cache, st0.calls + 1, st0.now + d st0.calls⟩
      = (Except.ok (f (st0.calls + 1)),
         ⟨((sn, key), f (st0.calls + 1)) :: ((sn, key), f st0.calls) :: st0.cache,
          st0.calls + 2, st0.now + d st0.calls + d (st0.calls + 1)⟩) ∧
    lookupKV (((sn, key), f (st0.calls + 1)) :: ((sn, key), f st0.calls) :: st0.cache) (sn, key)
      = some (f (st0.calls + 1)) := by
  have hpol : policyFor api sn = ⟨1, none, 0⟩ := by simp [policyFor, h5]
  refine ⟨?_, ?_, ?_, ?_⟩
  · have hrun : runAttempts (store.getSecret key) none 0 1 st0
        = (Except.ok (f st0.calls), ⟨st0.cache, st0.calls + 1, st0.now + d st0.calls⟩) := by
      conv_lhs => rw [runAttempts]
      simp [hb]
    rw [getSecret_cacheMiss h2 h3 h4 hmd hmiss]
    exact invokeAndCache_ok_cache h4 (by rw [hpol]; exact hrun)
  · refine getSecret_cacheHit h2 h3 h4 hmd ?_
    simp [lookupKV]
  · have hrun : runAttempts (store.getSecret key) none 0 1
        ⟨((sn, key), f st0.calls) :: st0.cache, st0.calls + 1, st0.now + d st0.calls⟩
        = (Except.ok (f (st0.calls + 1)),
           ⟨((sn, key), f st0.calls) :: st0.cache, st0.calls + 2, st0.now + d st0.calls + d (st0.calls + 1)⟩) := by
      conv_lhs => rw [runAttempts]
      simp [hb]
    rw [getSecret_refresh h2 h3 hmdr]
    exact invokeAndCache_ok_cache h4 (by rw [hpol]; exact hrun)
  · simp [lookupKV]

/-- Witness for the amended C3 at the tests' cache scenario (store1,
good-key, refresh flag on the third call). -/
theorem C3_cache_idempotence_and_refresh_witness :
    getSecret ⟨[("store1", fakeStore)], [], (fun _ => none), ["store1"]⟩
        ⟨"store1", "good-key", []⟩ ⟨[], 0, 0⟩
      = (Except.ok [("good-key", "life is good")],
         ⟨[(("store1", "good-key"), [("good-key", "life is good")])], 0 + 1, 0 + 0⟩) ∧
    getSecret ⟨[("store1", fakeStore)], [], (fun _ => none), ["store1"]⟩
        ⟨"store1", "good-key", []⟩
        ⟨[(("store1", "good-key"), [("good-key", "life is good")])], 0 + 1, 0 + 0⟩
      = (Except.ok [("good-key", "life is good")],
         ⟨[(("store1", "good-key"), [("good-key", "life is good")])], 0 + 1, 0 + 0⟩) ∧
    getSecret ⟨[("store1", fakeStore)], [], (fun _ => none), ["store1"]⟩
        ⟨"store1", "good-key", [(refreshCacheKey, "true")]⟩
        ⟨[(("store1", "good-key"), [("good-key", "life is good")])], 0 + 1, 0 + 0⟩
      = (Except.ok [("good-key", "life is good")],
         ⟨[(("store1", "good-key"), [("good-key", "life is good")]),
           (("store1", "good-key"), [("good-key", "life is good")])], 0 + 2, 0 + 0 + 0⟩) ∧
    lookupKV [(("store1", "good-key"), [("good-key", "life is good")]),
        (("store1", "good-key"), [("good-key", "life is good")])] ("store1", "good-key")
      = some [("good-key", "life is good")] := by
  have h := C3_cache_idempotence_and_refresh
    ⟨[("store1", fakeStore)], [], (fun _ => none), ["store1"]⟩
    "store1" "good-key" [] [(refreshCacheKey, "true")] ⟨[], 0, 0⟩ fakeStore
    (fun _ => [("good-key", "life is good")]) (fun _ => 0)
    (by simp [lookupStore, show (lowerStr "store1" == lowerStr "store1") = true from by decide])
    (by simp [isSecretAllowed, lookupKV])
    (by decide)
    (by simp)
    (by decide)
    (by decide)
    (by simp [lookupKV])
    (by intro n; rfl)
  exact h

/-! ### The pub/sub component registry (pkg/components/pubsub) -/

/-- The registry of pluggable message-bus factories, generic in the
logger type L and the produced component type P: a logger plus the map
from full lower-cased names to factories. -/
structure Registry (L P : Type) where
  logger : L
  messageBuses : List (String × (L → P))

/-- wrapFn from the source: delay the factory call, applying the
registry's logger when the component is actually created. -/
def wrapFn {L P : Type} (p : Registry L P) (componentFactory : L → P) : Unit → P :=
  fun _ => componentFactory p.logger

/-- getPubSub from the source: look up the lower-cased name/version key
first; if absent and the version denotes the initial/unspecified version
(components.IsInitialVersion, not under src/, passed as a predicate),
fall back to the bare lower-cased name. -/
def getPubSub {L P : Type} (isInitialVersion : String → Bool) (p : Registry L P)
    (name version : String) : Option (Unit → P) :=
  let nameLower := lowerStr name
  let versionLower := lowerStr version
  match lookupKV p.messageBuses (nameLower ++ "/" ++ versionLower) with
  | some pubSubFn => some (wrapFn p pubSubFn)
  | none =>
    if isInitialVersion versionLower then
      match lookupKV p.messageBuses nameLower with
      | some pubSubFn => some (wrapFn p pubSubFn)
      | none => none
    else none

/-- Create from the source: instantiate a pub/sub by name, or report that
the message bus could not be found. -/
def Create {L P : Type} (isInitialVersion : String → Bool) (p : Registry L P)
    (name version : String) : Except String P :=
  match getPubSub isInitialVersion p name version with
  | some method => Except.ok (method ())
  | none => Except.error ("could not find message bus " ++ name ++ "/" ++ version)

/-- Create instrumented with a counter of factory invocations: the
counter advances exactly when the registered factory is applied (inside
the wrapped method), never otherwise. -/
def CreateCounted {L P : Type} (isInitialVersion : String → Bool) (p : Registry L P)
    (name version : String) (calls : Nat) : Except String P × Nat :=
  match getPubSub isInitialVersion p name version with
  | some method => (Except.ok (method ()), calls + 1)
  | none => (Except.error ("could not find message bus " ++ name ++ "/" ++ version), calls)

/-- The factory-invocation counter after k repeated Create calls for the
same name and version. -/
def CreateCalls {L P : Type} (isInitialVersion : String → Bool) (p : Registry L P)
    (name version : String) : Nat → Nat → Nat
  | 0, c => c
  | k + 1, c =>
    CreateCalls isInitialVersion p name version k
      (CreateCounted isInitialVersion p name version c).2

/-! ### Claims C8 and C9 -/

/-- C8: registry resolution first looks up the lower-cased
name/version key; if that key is absent and the version denotes the
initial/unspecified version, it falls back to the bare lower-cased name;
in all other cases Create returns an error.  Stated for every
initial-version predicate (components.IsInitialVersion is outside the
repository fragment). -/
theorem C8_registry_resolution {L P : Type} (isInitialVersion : String → Bool)
    (p : Registry L P) (name version : String) :
    (∀ f, lookupKV p.messageBuses (lowerStr name ++ "/" ++ lowerStr version) = some f →
      Create isInitialVersion p name version = Except.ok (f p.logger)) ∧
    (lookupKV p.messageBuses (lowerStr name ++ "/" ++ lowerStr version) = none →
      isInitialVersion (lowerStr version) = true →
      ∀ f, lookupKV p.messageBuses (lowerStr name) = some f →
      Create isInitialVersion p name version = Except.ok (f p.logger)) ∧
    (lookupKV p.messageBuses (lowerStr name ++ "/" ++ lowerStr version) = none →
      (isInitialVersion (lowerStr version) = false ∨ lookupKV p.messageBuses (lowerStr name) = none) →
      Create isInitialVersion p name version
        = Except.error ("could not find message bus " ++ name ++ "/" ++ version)) := by
  refine ⟨?_, ?_, ?_⟩
  · intro f hf
    simp [Create, getPubSub, hf, wrapFn]
  · intro hnone hinit f hf
    simp [Create, getPubSub, hnone, hinit, hf, wrapFn]
  · intro hnone hcase
    rcases hcase with hinit | hbare
    · simp [Create, getPubSub, hnone, hinit]
    · cases hinit : isInitialVersion (lowerStr version) with
      | false => simp [Create, getPubSub, hnone, hinit]
      | true => simp [Create, getPubSub, hnone, hinit, hbare]

/-- Witness for C8: a one-entry registry over Nat loggers; the full key
resolves through the factory, an unknown name/version errors. -/
theorem C8_registry_resolution_witness :
    Create (fun v => v == "v1") ⟨7, [("pubsub.redis/v1", fun l => l + 1)]⟩
      "pubsub.Redis" "V1" = Except.ok 8 ∧
    Create (fun v => v == "v1") (⟨7, [("pubsub.redis/v1", fun l => l + 1)]⟩ : Registry Nat Nat)
      "pubsub.other" "v2"
      = Except.error ("could not find message bus " ++ "pubsub.other" ++ "/" ++ "v2") := by
  have h1 := C8_registry_resolution (fun v => v == "v1")
    (⟨7, [("pubsub.redis/v1", fun l => l + 1)]⟩ : Registry Nat Nat) "pubsub.Redis" "V1"
  have h2 := C8_registry_resolution (fun v => v == "v1")
    (⟨7, [("pubsub.redis/v1", fun l => l + 1)]⟩ : Registry Nat Nat) "pubsub.other" "v2"
  constructor
  · exact h1.1 (fun l => l + 1)
      (by simp [lookupKV,
        show ("pubsub.redis/v1" == lowerStr "pubsub.Redis" ++ "/" ++ lowerStr "V1") = true from by decide])
  · exact h2.2.2
      (by simp [lookupKV,
        show ("pubsub.redis/v1" == lowerStr "pubsub.other" ++ "/" ++ lowerStr "v2") = false from by decide])
      (Or.inl (by decide))

/-- C9: every successful Create invokes the registered factory anew,
applying it to the registry's logger: the instrumented counter advances
by one per call, and after k repeated Create calls the factory has run
exactly k times - the registry never serves a memoized instance. -/
theorem C9_create_never_memoizes {L P : Type} (isInitialVersion : String → Bool)
    (p : Registry L P) (name version : String) (f : L → P)
    (hf : lookupKV p.messageBuses (lowerStr name ++ "/" ++ lowerStr version) = some f) :
    (∀ c, CreateCounted isInitialVersion p name version c = (Except.ok (f p.logger), c + 1)) ∧
    (∀ k c, CreateCalls isInitialVersion p name version k c = c + k) := by
  have hget : getPubSub isInitialVersion p name version = some (wrapFn p f) := by
    simp [getPubSub, hf]
  have hcount : ∀ c, CreateCounted isInitialVersion p name version c
      = (Except.ok (f p.logger), c + 1) := by
    intro c
    simp [CreateCounted, hget, wrapFn]
  refine ⟨hcount, ?_⟩
  intro k
  induction k with
  | zero => intro c; simp [CreateCalls]
  | succ j ih =>
    intro c
    rw [CreateCalls, hcount c]
    rw [ih (c + 1)]
    omega

/-- Witness for C9: three repeated Create calls against a one-entry
registry invoke the factory three times. -/
theorem C9_create_never_memoizes_witness :
    CreateCounted (fun _ => false) (⟨7, [("pubsub.redis/v1", fun l => l + 1)]⟩ : Registry Nat Nat)
      "pubsub.redis" "v1" 0 = (Except.ok 8, 0 + 1) ∧
    CreateCalls (fun _ => false) (⟨7, [("pubsub.redis/v1", fun l => l + 1)]⟩ : Registry Nat Nat)
      "pubsub.redis" "v1" 3 0 = 0 + 3 := by
  have h := C9_create_never_memoizes (fun _ => false)
    (⟨7, [("pubsub.redis/v1", fun l => l + 1)]⟩ : Registry Nat Nat) "pubsub.redis" "v1" (fun l => l + 1)
    (by simp [lookupKV,
      show ("pubsub.redis/v1" == lowerStr "pubsub.redis" ++ "/" ++ lowerStr "v1") = true from by decide])
  exact ⟨h.1 0, h.2 3 0⟩

/-! ### Metadata templating (pkg/runtime/meta) -/

/-- Whether pat occurs as a contiguous substring (the embedding of
strings.Contains over character lists). -/
def containsSub : List Char → List Char → Bool
  | pat, [] => pat.isEmpty
  | pat, c :: cs => pat.isPrefixOf (c :: cs) || containsSub pat cs

/-- Replace the first occurrence of pat (the embedding of
strings.Replace with count 1). -/
def replaceFirst (pat repl : List Char) : List Char → List Char
  | [] => []
  | c :: cs =>
    if pat.isPrefixOf (c :: cs) then repl ++ (c :: cs).drop pat.length
    else c :: replaceFirst pat repl cs

/-- Replace every occurrence of pat left to right, not rescanning the
replacement (the embedding of strings.ReplaceAll for the non-empty
patterns used by the templating code). -/
def replaceAllGo : List Char → List Char → List Char → List Char
  | _, _, [] => []
  | [], _, l => l
  | p :: ps, repl, c :: cs =>
    if (p :: ps).isPrefixOf (c :: cs) then
      repl ++ replaceAllGo (p :: ps) repl (cs.drop ps.length)
    else c :: replaceAllGo (p :: ps) repl cs
termination_by _ _ l => l.length
decreasing_by
  all_goals simp [List.length_drop]
  all_goals omega

/-- The uuid token of the source. -/
def uuidTok : List Char := ['{', 'u', 'u', 'i', 'd', '}']

/-- The podName token of the source. -/
def podNameTok : List Char := ['{', 'p', 'o', 'd', 'N', 'a', 'm', 'e', '}']

/-- The namespace token of the source. -/
def namespaceTok : List Char := ['{', 'n', 'a', 'm', 'e', 's', 'p', 'a', 'c', 'e', '}']

/-- The appID token of the source. -/
def appIDTok : List Char := ['{', 'a', 'p', 'p', 'I', 'D', '}']

/-- The uuid-replacement loop of convertItemsToProps: while the value
contains the uuid token, replace its first occurrence with the next
generated identifier.  uuid.New() is modelled as a stream indexed by how
many identifiers were generated so far; the unbounded Go loop is run on
fuel, with none meaning the bound was hit before the loop finished. -/
def uuidLoop (uuids : Nat → List Char) : Nat → Nat → List Char → Option (Nat × List Char)
  | 0, i, val => if containsSub uuidTok val then none else some (i, val)
  | fuel + 1, i, val =>
    if containsSub uuidTok val then
      uuidLoop uuids fuel (i + 1) (replaceFirst uuidTok (uuids i) val)
    else some (i, val)

/-- The runtime identity used by templating (pkg/runtime/meta Meta);
only the fields the conversion reads. -/
structure Meta where
  id : List Char
  podName : List Char
  nspace : List Char

/-- The per-item body of convertItemsToProps: the uuid loop, then the
podName substitution (the log.Fatalf on an empty podName is modelled as
none), then the namespace substitution - whose replacement is the
namespace joined to the app id with a dot, exactly as the source's
fmt.Sprintf - then the appID substitution.  Returns the next uuid-stream
index together with the converted value. -/
def convertValue (m : Meta) (uuids : Nat → List Char) (fuel : Nat) (i : Nat)
    (val : List Char) : Option (Nat × List Char) :=
  match uuidLoop uuids fuel i val with
  | none => none
  | some (i2, v1) =>
    match (if containsSub podNameTok v1 then
             (if m.podName.isEmpty then none
              else some (replaceAllGo podNameTok m.podName v1))
           else some v1) with
    | none => none
    | some v2 =>
      let v3 := replaceAllGo namespaceTok (m.nspace ++ '.' :: m.id) v2
      let v4 := replaceAllGo appIDTok m.id v3
      some (i2, v4)

/-- convertItemsToProps over a list of name/value items, threading the
uuid-stream index left to right; the Go map is represented as the
association list of items in order (the claims use distinct names). -/
def convertItems (m : Meta) (uuids : Nat → List Char) (fuel : Nat) :
    Nat → List (List Char × List Char) → Option (List (List Char × List Char))
  | _, [] => some []
  | i, (nm, v) :: rest =>
    match convertValue m uuids fuel i v with
    | none => none
    | some (i2, v2) =>
      match convertItems m uuids fuel i2 rest with
      | none => none
      | some props => some ((nm, v2) :: props)

/-- convertItemsToProps from the source, starting the uuid stream at 0. -/
def convertItemsToProps (m : Meta) (uuids : Nat → List Char) (fuel : Nat)
    (items : List (List Char × List Char)) : Option (List (List Char × List Char)) :=
  convertItems m uuids fuel 0 items

/-- A value split at the occurrences of a separator token: joinParts sep
parts puts sep back between consecutive parts. -/
def joinParts (sep : List Char) : List (List Char) → List Char
  | [] => []
  | [p] => p
  | p :: q :: rest => p ++ sep ++ joinParts sep (q :: rest)

/-- The expected uuid expansion: the i-th occurrence (left to right)
receives the i-th generated identifier. -/
def interleaveFrom (uuids : Nat → List Char) : Nat → List (List Char) → List Char
  | _, [] => []
  | _, [p] => p
  | i, p :: q :: rest => p ++ uuids i ++ interleaveFrom uuids (i + 1) (q :: rest)

/-! ### Substring lemmas for the templating proofs -/

theorem isPrefixOf_append_self : ∀ (p y : List Char), p.isPrefixOf (p ++ y) = true := by
  intro p
  induction p with
  | nil => intro y; simp [List.isPrefixOf]
  | cons a as ih => intro y; simp [List.isPrefixOf, ih y]

theorem isPrefixOf_cons_ne {c p : Char} (h : ¬ c = p) (ps l : List Char) :
    ((p :: ps).isPrefixOf (c :: l)) = false := by
  simp [List.isPrefixOf]
  intro hpc
  exact absurd hpc.symm h

theorem containsSub_append_brace (t : List Char) :
    ∀ (x z : List Char), '{' ∉ x → containsSub ('{' :: t) (x ++ z) = containsSub ('{' :: t) z := by
  intro x
  induction x with
  | nil => intro z _; rfl
  | cons c cs ih =>
    intro z hx
    have hc : ¬ c = '{' := by
      intro hc
      exact hx (by rw [hc]; exact List.mem_cons_self _ _)
    have hcs : '{' ∉ cs := fun hm => hx (List.mem_cons_of_mem _ hm)
    simp [containsSub, isPrefixOf_cons_ne hc, ih z hcs]

theorem containsSub_of_no_brace (t l : List Char) (hl : '{' ∉ l) :
    containsSub ('{' :: t) l = false := by
  have h := containsSub_append_brace t l [] hl
  rw [List.append_nil] at h
  rw [h]
  rfl

theorem containsSub_self_append (c : Char) (t z : List Char) :
    containsSub (c :: t) ((c :: t) ++ z) = true := by
  simp [containsSub, isPrefixOf_append_self]

theorem replaceAllGo_no_occ (t repl : List Char) :
    ∀ (l : List Char), containsSub ('{' :: t) l = false → replaceAllGo ('{' :: t) repl l = l := by
  intro l
  induction l with
  | nil => intro _; simp [replaceAllGo]
  | cons c cs ih =>
    intro h
    rw [containsSub] at h
    have hp : ('{' :: t).isPrefixOf (c :: cs) = false := by
      cases hb : ('{' :: t).isPrefixOf (c :: cs) with
      | false => rfl
      | true => rw [hb] at h; simp at h
    have hcs : containsSub ('{' :: t) cs = false := by
      cases hb : containsSub ('{' :: t) cs with
      | false => rfl
      | true => rw [hb] at h; simp at h
    rw [replaceAllGo, hp]
    simp [ih hcs]

theorem replaceAllGo_append (t repl : List Char) :
    ∀ (x y : List Char), '{' ∉ x →
      replaceAllGo ('{' :: t) repl (x ++ (('{' :: t) ++ y))
        = x ++ (repl ++ replaceAllGo ('{' :: t) repl y) := by
  intro x
  induction x with
  | nil =>
    intro y _
    simp only [List.nil_append]
    rw [show ('{' :: t) ++ y = '{' :: (t ++ y) from rfl]
    rw [replaceAllGo]
    have hpre : ('{' :: t).isPrefixOf ('{' :: (t ++ y)) = true := isPrefixOf_append_self ('{' :: t) y
    simp [hpre, List.drop_left]
  | cons c cs ih =>
    intro y hx
    have hc : ¬ c = '{' := fun hc => hx (by rw [hc]; exact List.mem_cons_self _ _)
    have hcs : '{' ∉ cs := fun hm => hx (List.mem_cons_of_mem _ hm)
    rw [show (c :: cs) ++ (('{' :: t) ++ y) = c :: (cs ++ (('{' :: t) ++ y)) from rfl]
    rw [replaceAllGo]
    simp [isPrefixOf_cons_ne hc]
    simpa using ih y hcs

theorem replaceFirst_append (t repl : List Char) :
    ∀ (x y : List Char), '{' ∉ x →
      replaceFirst ('{' :: t) repl (x ++ (('{' :: t) ++ y)) = x ++ (repl ++ y) := by
  intro x
  induction x with
  | nil =>
    intro y _
    simp only [List.nil_append]
    rw [show ('{' :: t) ++ y = '{' :: (t ++ y) from rfl]
    rw [replaceFirst]
    have hpre : ('{' :: t).isPrefixOf ('{' :: (t ++ y)) = true := isPrefixOf_append_self ('{' :: t) y
    simp [hpre, List.drop_left]
  | cons c cs ih =>
    intro y hx
    have hc : ¬ c = '{' := fun hc => hx (by rw [hc]; exact List.mem_cons_self _ _)
    have hcs : '{' ∉ cs := fun hm => hx (List.mem_cons_of_mem _ hm)
    rw [show (c :: cs) ++ (('{' :: t) ++ y) = c :: (cs ++ (('{' :: t) ++ y)) from rfl]
    rw [replaceFirst]
    simp [isPrefixOf_cons_ne hc]
    simpa using ih y hcs

theorem replaceAllGo_joinParts (t repl : List Char) :
    ∀ (parts : List (List Char)), (∀ p ∈ parts, '{' ∉ p) →
      replaceAllGo ('{' :: t) repl (joinParts ('{' :: t) parts) = joinParts repl parts := by
  intro parts
  induction parts with
  | nil => intro _; simp [joinParts, replaceAllGo]
  | cons p rest ih =>
    intro hps
    cases rest with
    | nil =>
      simp only [joinParts]
      exact replaceAllGo_no_occ t repl p (containsSub_of_no_brace t p (hps p (by simp)))
    | cons q rest2 =>
      have hp : '{' ∉ p := hps p (by simp)
      rw [joinParts, joinParts, List.append_assoc, List.append_assoc]
      rw [replaceAllGo_append t repl p (joinParts ('{' :: t) (q :: rest2)) hp]
      rw [ih (fun x hx => hps x (List.mem_cons_of_mem _ hx))]

theorem no_brace_joinParts (sep : List Char) (hsep : '{' ∉ sep) :
    ∀ parts : List (List Char), (∀ p ∈ parts, '{' ∉ p) → '{' ∉ joinParts sep parts := by
  intro parts
  induction parts with
  | nil => intro _; simp [joinParts]
  | cons p rest ih =>
    intro hps
    cases rest with
    | nil => simpa [joinParts] using hps p (by simp)
    | cons q rest2 =>
      have hp := hps p (by simp)
      have hrest := ih (fun x hx => hps x (List.mem_cons_of_mem _ hx))
      rw [joinParts]
      simp only [List.mem_append, not_or]
      exact ⟨⟨hp, hsep⟩, hrest⟩

theorem no_brace_interleaveFrom (uuids : Nat → List Char) (hu : ∀ k, '{' ∉ uuids k) :
    ∀ parts : List (List Char), (∀ p ∈ parts, '{' ∉ p) →
      ∀ i, '{' ∉ interleaveFrom uuids i parts := by
  intro parts
  induction parts with
  | nil => intro _ i; simp [interleaveFrom]
  | cons p rest ih =>
    intro hps i
    cases rest with
    | nil => simpa [interleaveFrom] using hps p (by simp)
    | cons q rest2 =>
      have hp := hps p (by simp)
      have hrest := ih (fun x hx => hps x (List.mem_cons_of_mem _ hx)) (i + 1)
      rw [interleaveFrom]
      simp only [List.mem_append, not_or]
      exact ⟨⟨hp, hu i⟩, hrest⟩

theorem interleaveFrom_append_head (uuids : Nat → List Char) (j : Nat)
    (p u q : List Char) (rs : List (List Char)) :
    interleaveFrom uuids j ((p ++ (u ++ q)) :: rs)
      = p ++ (u ++ interleaveFrom uuids j (q :: rs)) := by
  cases rs <;> simp [interleaveFrom, List.append_assoc]

theorem joinParts_length (sep : List Char) :
    ∀ parts : List (List Char),
      (joinParts sep parts).length = (parts.map List.length).sum + (parts.length - 1) * sep.length := by
  intro parts
  induction parts with
  | nil => simp [joinParts]
  | cons p rest ih =>
    cases rest with
    | nil => simp [joinParts]
    | cons q rest2 =>
      rw [joinParts]
      simp only [List.length_append, ih, List.map_cons, List.sum_cons, List.length_cons]
      rw [show rest2.length + 1 + 1 - 1 = rest2.length + 1 from by omega,
        show rest2.length + 1 - 1 = rest2.length from by omega]
      ring

theorem joinParts_ne_longer (sep1 sep2 : List Char) (parts : List (List Char))
    (h2 : 2 ≤ parts.length) (hlen : sep1.length < sep2.length) :
    joinParts sep2 parts ≠ joinParts sep1 parts := by
  intro heq
  have hl := congrArg List.length heq
  rw [joinParts_length, joinParts_length] at hl
  have hcancel := Nat.add_left_cancel hl
  have hpos : 0 < parts.length - 1 := by omega
  have hlt : (parts.length - 1) * sep1.length < (parts.length - 1) * sep2.length :=
    mul_lt_mul_of_pos_left hlen hpos
  exact absurd hcancel (Nat.ne_of_gt hlt)

theorem containsSub_joinParts_ne (a b : Char) (u v : List Char)
    (hab : ¬ a = b) (hbv : '{' ∉ (b :: v)) :
    ∀ parts : List (List Char), (∀ p ∈ parts, '{' ∉ p) →
      containsSub ('{' :: a :: u) (joinParts ('{' :: b :: v) parts) = false := by
  intro parts
  induction parts with
  | nil => intro _; rfl
  | cons p rest ih =>
    intro hps
    cases rest with
    | nil =>
      simp only [joinParts]
      exact containsSub_of_no_brace _ p (hps p (by simp))
    | cons q rest2 =>
      have hp := hps p (by simp)
      rw [joinParts, List.append_assoc]
      rw [containsSub_append_brace (a :: u) p _ hp]
      rw [show ('{' :: b :: v) ++ joinParts ('{' :: b :: v) (q :: rest2)
        = '{' :: ((b :: v) ++ joinParts ('{' :: b :: v) (q :: rest2)) from rfl]
      rw [containsSub]
      have h1 : ('{' :: a :: u).isPrefixOf
          ('{' :: ((b :: v) ++ joinParts ('{' :: b :: v) (q :: rest2))) = false := by
        rw [show ((b : Char) :: v) ++ joinParts ('{' :: b :: v) (q :: rest2)
          = b :: (v ++ joinParts ('{' :: b :: v) (q :: rest2)) from rfl]
        rw [List.isPrefixOf]
        rw [isPrefixOf_cons_ne (fun h => hab h.symm)]
        simp
      have h2 : containsSub ('{' :: a :: u)
          ((b :: v) ++ joinParts ('{' :: b :: v) (q :: rest2)) = false := by
        rw [containsSub_append_brace (a :: u) (b :: v) _ hbv]
        exact ih (fun x hx => hps x (List.mem_cons_of_mem _ hx))
      rw [h1, h2]
      rfl

theorem containsSub_uuidTok_append (x z : List Char) (hx : '{' ∉ x) :
    containsSub uuidTok (x ++ z) = containsSub uuidTok z :=
  containsSub_append_brace ['u', 'u', 'i', 'd', '}'] x z hx

theorem containsSub_uuidTok_self_append (z : List Char) :
    containsSub uuidTok (uuidTok ++ z) = true :=
  containsSub_self_append '{' ['u', 'u', 'i', 'd', '}'] z

theorem containsSub_uuidTok_no_brace (l : List Char) (hl : '{' ∉ l) :
    containsSub uuidTok l = false :=
  containsSub_of_no_brace ['u', 'u', 'i', 'd', '}'] l hl

theorem replaceFirst_uuidTok_append (repl x y : List Char) (hx : '{' ∉ x) :
    replaceFirst uuidTok repl (x ++ (uuidTok ++ y)) = x ++ (repl ++ y) :=
  replaceFirst_append ['u', 'u', 'i', 'd', '}'] repl x y hx

theorem uuidLoop_exit (uuids : Nat → List Char) (fuel i : Nat) (val : List Char)
    (h : containsSub uuidTok val = false) :
    uuidLoop uuids fuel i val = some (i, val) := by
  cases fuel <;> (rw [uuidLoop]; simp [h])

theorem uuidLoop_step (uuids : Nat → List Char) (f i : Nat) (val : List Char)
    (h : containsSub uuidTok val = true) :
    uuidLoop uuids (f + 1) i val
      = uuidLoop uuids f (i + 1) (replaceFirst uuidTok (uuids i) val) := by
  rw [uuidLoop]
  simp [h]

theorem uuidLoop_joinParts (uuids : Nat → List Char) (hu : ∀ k, '{' ∉ uuids k) :
    ∀ (rest : List (List Char)) (p : List Char) (fuel i : Nat), '{' ∉ p →
      (∀ x ∈ rest, '{' ∉ x) → rest.length ≤ fuel →
      uuidLoop uuids fuel i (joinParts uuidTok (p :: rest))
        = some (i + rest.length, interleaveFrom uuids i (p :: rest)) := by
  intro rest
  induction rest with
  | nil =>
    intro p fuel i hp _ _
    have hc : containsSub uuidTok (joinParts uuidTok [p]) = false := by
      simp only [joinParts]
      exact containsSub_uuidTok_no_brace p hp
    rw [uuidLoop_exit uuids fuel i _ hc]
    simp [joinParts, interleaveFrom]
  | cons q rest2 ih =>
    intro p fuel i hp hrest hfuel
    cases fuel with
    | zero =>
      exfalso
      simp only [List.length_cons] at hfuel
      omega
    | succ f =>
      have hq : '{' ∉ q := hrest q (by simp)
      have hrest2 : ∀ x ∈ rest2, '{' ∉ x := fun x hx => hrest x (List.mem_cons_of_mem _ hx)
      have hjoin : joinParts uuidTok (p :: q :: rest2)
          = p ++ (uuidTok ++ joinParts uuidTok (q :: rest2)) := by
        rw [joinParts, List.append_assoc]
      have hcont : containsSub uuidTok (joinParts uuidTok (p :: q :: rest2)) = true := by
        rw [hjoin, containsSub_uuidTok_append p _ hp]
        exact containsSub_uuidTok_self_append _
      rw [uuidLoop_step uuids f i _ hcont]
      rw [hjoin, replaceFirst_uuidTok_append (uuids i) p (joinParts uuidTok (q :: rest2)) hp]
      have hjoin2 : p ++ (uuids i ++ joinParts uuidTok (q :: rest2))
          = joinParts uuidTok ((p ++ (uuids i ++ q)) :: rest2) := by
        cases rest2 with
        | nil => simp [joinParts]
        | cons r rs => simp [joinParts, List.append_assoc]
      rw [hjoin2]
      have hpuq : '{' ∉ p ++ (uuids i ++ q) := by
        simp only [List.mem_append, not_or]
        exact ⟨hp, hu i, hq⟩
      rw [ih (p ++ (uuids i ++ q)) f (i + 1) hpuq hrest2
        (by simp only [List.length_cons] at hfuel; omega)]
      rw [interleaveFrom_append_head]
      rw [show interleaveFrom uuids i (p :: q :: rest2)
        = p ++ (uuids i ++ interleaveFrom uuids (i + 1) (q :: rest2)) from by
          rw [interleaveFrom, List.append_assoc]]
      rw [show i + 1 + rest2.length = i + (q :: rest2).length from by
        simp only [List.length_cons]; omega]

theorem convertValue_namespace (m : Meta) (uuids : Nat → List Char) (fuel i : Nat)
    (partsA : List (List Char))
    (hns : '{' ∉ m.nspace) (hid : '{' ∉ m.id) (hA : ∀ p ∈ partsA, '{' ∉ p) :
    convertValue m uuids fuel i (joinParts namespaceTok partsA)
      = some (i, joinParts (m.nspace ++ '.' :: m.id) partsA) := by
  have h1 : containsSub uuidTok (joinParts namespaceTok partsA) = false :=
    containsSub_joinParts_ne 'u' 'n' ['u', 'i', 'd', '}']
      ['a', 'm', 'e', 's', 'p', 'a', 'c', 'e', '}'] (by decide) (by decide) partsA hA
  have h2 : containsSub podNameTok (joinParts namespaceTok partsA) = false :=
    containsSub_joinParts_ne 'p' 'n' ['o', 'd', 'N', 'a', 'm', 'e', '}']
      ['a', 'm', 'e', 's', 'p', 'a', 'c', 'e', '}'] (by decide) (by decide) partsA hA
  have h3 : replaceAllGo namespaceTok (m.nspace ++ '.' :: m.id) (joinParts namespaceTok partsA)
      = joinParts (m.nspace ++ '.' :: m.id) partsA :=
    replaceAllGo_joinParts ['n', 'a', 'm', 'e', 's', 'p', 'a', 'c', 'e', '}'] _ partsA hA
  have hsep : '{' ∉ m.nspace ++ '.' :: m.id := by
    intro hmem
    rcases List.mem_append.mp hmem with h | h
    · exact hns h
    · rcases List.mem_cons.mp h with h | h
      · exact absurd h (by decide)
      · exact hid h
  have h5 : replaceAllGo appIDTok m.id (joinParts (m.nspace ++ '.' :: m.id) partsA)
      = joinParts (m.nspace ++ '.' :: m.id) partsA :=
    replaceAllGo_no_occ ['a', 'p', 'p', 'I', 'D', '}'] m.id _
      (containsSub_of_no_brace _ _ (no_brace_joinParts _ hsep partsA hA))
  rw [convertValue, uuidLoop_exit uuids fuel i _ h1]
  simp [h2, h3, h5]

theorem convertValue_uuid (m : Meta) (uuids : Nat → List Char) (fuel i : Nat)
    (pB : List Char) (restB : List (List Char))
    (hu : ∀ k, '{' ∉ uuids k) (hpB : '{' ∉ pB) (hrB : ∀ x ∈ restB, '{' ∉ x)
    (hfuel : restB.length ≤ fuel) :
    convertValue m uuids fuel i (joinParts uuidTok (pB :: restB))
      = some (i + restB.length, interleaveFrom uuids i (pB :: restB)) := by
  have hparts : ∀ x ∈ pB :: restB, '{' ∉ x := by
    intro x hx
    rcases List.mem_cons.mp hx with h | h
    · rw [h]; exact hpB
    · exact hrB x h
  have hbf : '{' ∉ interleaveFrom uuids i (pB :: restB) :=
    no_brace_interleaveFrom uuids hu (pB :: restB) hparts i
  have h2 : containsSub podNameTok (interleaveFrom uuids i (pB :: restB)) = false :=
    containsSub_of_no_brace _ _ hbf
  have h3 : replaceAllGo namespaceTok (m.nspace ++ '.' :: m.id)
      (interleaveFrom uuids i (pB :: restB)) = interleaveFrom uuids i (pB :: restB) :=
    replaceAllGo_no_occ _ _ _ (containsSub_of_no_brace _ _ hbf)
  have h4 : replaceAllGo appIDTok m.id (interleaveFrom uuids i (pB :: restB))
      = interleaveFrom uuids i (pB :: restB) :=
    replaceAllGo_no_occ _ _ _ (containsSub_of_no_brace _ _ hbf)
  rw [convertValue, uuidLoop_joinParts uuids hu restB pB fuel i hpB hrB hfuel]
  simp [h2, h3, h4]

/-! ### Claim C10 -/

/-- C10: during metadata templating, every occurrence of the namespace
token in a value split as joinParts namespaceTok partsA is replaced by
the namespace joined to the app id with a dot - and, with at least one
occurrence present, the result differs from replacing by the namespace
alone; every occurrence of the uuid token is replaced one at a time by
the next independently generated identifier of the stream (occurrence i
receives uuids i), until no uuid-token occurrence remains. -/
theorem C10_namespace_and_uuid_templating (m : Meta) (uuids : Nat → List Char)
    (nmA nmB : List Char) (partsA : List (List Char)) (pB : List Char)
    (restB : List (List Char)) (fuelA fuelB : Nat)
    (hns : '{' ∉ m.nspace) (hid : '{' ∉ m.id)
    (hu : ∀ k, '{' ∉ uuids k)
    (hA : ∀ p ∈ partsA, '{' ∉ p)
    (hpB : '{' ∉ pB) (hrB : ∀ x ∈ restB, '{' ∉ x)
    (hfuel : restB.length ≤ fuelB) :
    convertItemsToProps m uuids fuelA [(nmA, joinParts namespaceTok partsA)]
      = some [(nmA, joinParts (m.nspace ++ '.' :: m.id) partsA)] ∧
    (2 ≤ partsA.length →
      joinParts (m.nspace ++ '.' :: m.id) partsA ≠ joinParts m.nspace partsA) ∧
    uuidLoop uuids fuelB 0 (joinParts uuidTok (pB :: restB))
      = some (restB.length, interleaveFrom uuids 0 (pB :: restB)) ∧
    convertItemsToProps m uuids fuelB [(nmB, joinParts uuidTok (pB :: restB))]
      = some [(nmB, interleaveFrom uuids 0 (pB :: restB))] ∧
    containsSub uuidTok (interleaveFrom uuids 0 (pB :: restB)) = false := by
  refine ⟨?_, ?_, ?_, ?_, ?_⟩
  · rw [convertItemsToProps, convertItems,
      convertValue_namespace m uuids fuelA 0 partsA hns hid hA]
    rfl
  · intro h2
    refine joinParts_ne_longer m.nspace (m.nspace ++ '.' :: m.id) partsA h2 ?_
    simp only [List.length_append, List.length_cons]
    omega
  · have h := uuidLoop_joinParts uuids hu restB pB fuelB 0 hpB hrB hfuel
    simpa using h
  · rw [convertItemsToProps, convertItems,
      convertValue_uuid m uuids fuelB 0 pB restB hu hpB hrB hfuel]
    rfl
  · refine containsSub_uuidTok_no_brace _ (no_brace_interleaveFrom uuids hu (pB :: restB) ?_ 0)
    intro x hx
    rcases List.mem_cons.mp hx with h | h
    · rw [h]; exact hpB
    · exact hrB x h

/-- Witness for C10: namespace "ns", app id "id", two parts around one
token occurrence, a constant uuid stream. -/
theorem C10_namespace_and_uuid_templating_witness :
    convertItemsToProps ⟨['i', 'd'], [], ['n', 's']⟩ (fun _ => ['u']) 0
        [(['a'], joinParts namespaceTok [['x'], ['y']])]
      = some [(['a'], joinParts (['n', 's'] ++ '.' :: ['i', 'd']) [['x'], ['y']])] ∧
    joinParts (['n', 's'] ++ '.' :: ['i', 'd']) [['x'], ['y']] ≠ joinParts ['n', 's'] [['x'], ['y']] ∧
    uuidLoop (fun _ => ['u']) 1 0 (joinParts uuidTok [['x'], ['y']])
      = some (1, interleaveFrom (fun _ => ['u']) 0 [['x'], ['y']]) ∧
    convertItemsToProps ⟨['i', 'd'], [], ['n', 's']⟩ (fun _ => ['u']) 1
        [(['b'], joinParts uuidTok [['x'], ['y']])]
      = some [(['b'], interleaveFrom (fun _ => ['u']) 0 [['x'], ['y']])] ∧
    containsSub uuidTok (interleaveFrom (fun _ => ['u']) 0 [['x'], ['y']]) = false := by
  have h := C10_namespace_and_uuid_templating ⟨['i', 'd'], [], ['n', 's']⟩ (fun _ => ['u'])
    ['a'] ['b'] [['x'], ['y']] ['x'] [['y']] 0 1
    (by decide) (by decide) (by intro k; show '{' ∉ (['u'] : List Char); decide)
    (by intro p hp; fin_cases hp <;> decide)
    (by decide)
    (by intro x hx; fin_cases hx <;> decide)
    (by decide)
  exact ⟨h.1, h.2.1 (by decide), h.2.2.1, h.2.2.2.1, h.2.2.2.2⟩
